import Mathlib

/-!
Verification of the JULEA client request pipeline and the LevelDB KV backend.

The definitions below are shallow embeddings of the C sources:
  * `src/client/kv/jkv.c`        — KV client (put/get/delete execute functions)
  * `src/client/object/jobject.c`— object client (create/delete/read/write/status)
  * `src/backend/server/leveldb.c`— LevelDB KV backend (batches, get, iteration)
  * `src/lib/jconfiguration.c`   — configuration search and construction
  * `src/lib/jcommon.c`          — initialization
Pure functions become Lean functions; caller-owned out-parameters (byte
counters, value cells) are threaded as explicit `Option` values where `none`
means "never written".  Components of the repository that are not among the
sources (the message codec `jmessage.c`, the hash helper, the batch engine)
are modelled from the specification and marked as such in their doc comments.
-/

set_option maxHeartbeats 1000000

/-- Safety classes of a batch's semantics (`JSemanticsSafety` in `jsemantics.h`,
values in the order none, network, storage). -/
inductive JSemanticsSafety where
  | none
  | network
  | storage
deriving DecidableEq, Repr

/-- Flag bits of a message header.  `network` is `J_MESSAGE_FLAGS_SAFETY_NETWORK`
(the receiver must produce a reply), `storage` is `J_MESSAGE_FLAGS_SAFETY_STORAGE`. -/
structure MessageFlags where
  network : Bool
  storage : Bool
deriving DecidableEq, Repr

/-- Modelled from the spec: `j_message_set_safety` (in `jmessage.c`, which is not
among the sources).  Per §4.C the `flags` field carries `SAFETY_NETWORK` exactly
when the batch's safety demands at least a network acknowledgement, and the
storage flag when the server must flush before replying. -/
def j_message_set_safety (safety : JSemanticsSafety) : MessageFlags :=
  match safety with
  | JSemanticsSafety.none => { network := false, storage := false }
  | JSemanticsSafety.network => { network := true, storage := false }
  | JSemanticsSafety.storage => { network := true, storage := true }

/-! ## Object client: create / delete / status execute functions

From `src/client/object/jobject.c`.  The backend vtable calls are abstracted as
boolean-valued functions of the `(namespace, name)` pair an operation targets
(the object handle obtained from `create`/`open` is determined by that pair).
`Option.none` for the backend means no in-process object backend is loaded, in
which case the execute functions build and send a wire message (which never
assigns `ret`). -/

/-- Abstraction of the object backend vtable calls used by the execute
functions (`j_backend_object_*` in `src/lib/jbackend.c`): each returns the
boolean success of the corresponding backend call on the given
`(namespace, name)` operation. -/
structure ObjectBackendFns where
  create : String → String → Bool
  bopen : String → String → Bool
  bclose : String → String → Bool
  bdelete : String → String → Bool
  status : String → String → Bool

/-- `j_object_create_exec` (jobject.c:156-249).  `ret` is initialized to `FALSE`;
with a local backend the loop performs `ret = create && ret; ret = close && ret`
per operation; on the wire path `ret` is never assigned. -/
def j_object_create_exec (backend : Option ObjectBackendFns)
    (ops : List (String × String)) : Bool :=
  match backend with
  | some fns =>
    ops.foldl (fun ret o => fns.bclose o.1 o.2 && (fns.create o.1 o.2 && ret)) false
  | Option.none => false

/-- `j_object_delete_exec` (jobject.c:251-335).  `ret` starts `FALSE`; per
operation `ret = open && ret; ret = delete && ret`. -/
def j_object_delete_exec (backend : Option ObjectBackendFns)
    (ops : List (String × String)) : Bool :=
  match backend with
  | some fns =>
    ops.foldl (fun ret o => fns.bdelete o.1 o.2 && (fns.bopen o.1 o.2 && ret)) false
  | Option.none => false

/-- `j_object_status_exec` (jobject.c:644-748).  `ret` starts `FALSE`; per
operation `ret = open && ret; ret = status && ret; ret = close && ret`. -/
def j_object_status_exec (backend : Option ObjectBackendFns)
    (ops : List (String × String)) : Bool :=
  match backend with
  | some fns =>
    ops.foldl
      (fun ret o => fns.bclose o.1 o.2 && (fns.status o.1 o.2 && (fns.bopen o.1 o.2 && ret)))
      false
  | Option.none => false

/-- An object backend whose calls all succeed. -/
def allTrueObjectBackend : ObjectBackendFns :=
  { create := fun _ _ => true
    bopen := fun _ _ => true
    bclose := fun _ _ => true
    bdelete := fun _ _ => true
    status := fun _ _ => true }

theorem foldl_and_absorb_false {α : Type} (g : Bool → α → Bool)
    (hg : ∀ a, g false a = false) : ∀ l : List α, l.foldl g false = false
  | [] => rfl
  | a :: t => by rw [List.foldl_cons, hg a]; exact foldl_and_absorb_false g hg t

/-! ## Configuration (src/lib/jconfiguration.c) -/

/-- The `JConfiguration` struct (jconfiguration.c:42-118). -/
structure JConfiguration where
  servers_object : List String
  servers_kv : List String
  object_backend : String
  object_component : String
  object_path : String
  kv_backend : String
  kv_component : String
  kv_path : String
  max_connections : Nat
deriving DecidableEq, Repr

def j_configuration_get_object_server_count (c : JConfiguration) : Nat :=
  c.servers_object.length

def j_configuration_get_kv_server_count (c : JConfiguration) : Nat :=
  c.servers_kv.length

def j_configuration_get_max_connections (c : JConfiguration) : Nat :=
  c.max_connections

/-- The key-file values `j_configuration_new_for_data` reads (GLib key-file
lookups are treated as a struct-valued input, per the spec's scope):
`none` models an absent key; `g_key_file_get_integer` yields 0 for an absent
key, `g_key_file_get_string_list` and `g_key_file_get_string` yield NULL. -/
structure GKeyFile where
  servers_object : Option (List String)
  servers_kv : Option (List String)
  object_backend : Option String
  object_component : Option String
  object_path : Option String
  kv_backend : Option String
  kv_component : Option String
  kv_path : Option String
  clients_max_connections : Option Nat
deriving DecidableEq, Repr

/-- The `servers_object == NULL || servers_object[0] == NULL` test of
jconfiguration.c:245 (a NULL or empty string vector). -/
def strv_null_or_empty (o : Option (List String)) : Bool :=
  match o with
  | Option.none => true
  | some l => l.isEmpty

/-- `j_configuration_new_for_data` (jconfiguration.c:219-281): reject when one
of the eight required values is missing, otherwise build the configuration;
`max-connections` defaults to 0 when absent. -/
def j_configuration_new_for_data (kf : GKeyFile) : Option JConfiguration :=
  if strv_null_or_empty kf.servers_object || strv_null_or_empty kf.servers_kv
     || kf.object_backend.isNone || kf.object_component.isNone || kf.object_path.isNone
     || kf.kv_backend.isNone || kf.kv_component.isNone || kf.kv_path.isNone then
    Option.none
  else
    some
      { servers_object := kf.servers_object.getD []
        servers_kv := kf.servers_kv.getD []
        object_backend := kf.object_backend.getD ""
        object_component := kf.object_component.getD ""
        object_path := kf.object_path.getD ""
        kv_backend := kf.kv_backend.getD ""
        kv_component := kf.kv_component.getD ""
        kv_path := kf.kv_path.getD ""
        max_connections := kf.clients_max_connections.getD 0 }

/-! ## Handles (src/client/object/jobject.c, src/client/kv/jkv.c) -/

/-- The `JObject` struct (jobject.c:82-103), without the reference count. -/
structure JObject where
  index : Nat
  nspace : String
  name : String
deriving DecidableEq, Repr

/-- The `JKV` struct (jkv.c:70-91), without the reference count. -/
structure JKV where
  index : Nat
  nspace : String
  key : String
deriving DecidableEq, Repr

/-- `j_object_new` (jobject.c:766-786).  `j_helper_hash` lives in `jhelper.c`,
which is not among the sources; it is passed in as a function parameter. -/
def j_object_new (hash : String → Nat) (cfg : JConfiguration)
    (nspace name : String) : JObject :=
  { index := hash name % j_configuration_get_object_server_count cfg
    nspace := nspace
    name := name }

/-- `j_object_new_for_index` (jobject.c:804-825): the
`g_return_val_if_fail(index < count, NULL)` guard rejects out-of-range
indices. -/
def j_object_new_for_index (cfg : JConfiguration) (index : Nat)
    (nspace name : String) : Option JObject :=
  if index < j_configuration_get_object_server_count cfg then
    some { index := index, nspace := nspace, name := name }
  else
    Option.none

/-- `j_kv_new` (jkv.c:477-497). -/
def j_kv_new (hash : String → Nat) (cfg : JConfiguration)
    (nspace key : String) : JKV :=
  { index := hash key % j_configuration_get_kv_server_count cfg
    nspace := nspace
    key := key }

/-- `j_kv_new_for_index` (jkv.c:515-536). -/
def j_kv_new_for_index (cfg : JConfiguration) (index : Nat)
    (nspace key : String) : Option JKV :=
  if index < j_configuration_get_kv_server_count cfg then
    some { index := index, nspace := nspace, key := key }
  else
    Option.none

/-! ## KV client wire path (src/client/kv/jkv.c)

With no local KV backend loaded (`j_kv_backend() == NULL`), the execute
functions serialize a message, lease a connection, send, and — depending on the
message flags — receive a reply.  The embedding records the flags the frame
was sent with, the number of replies read before the connection is pushed back
to the pool, and the boolean run result. -/

/-- Value bytes of a KV document (a bson blob, treated opaquely). -/
abbrev Bytes := List Nat

/-- Result of one KV put run over the wire. -/
structure KvPutWireRun where
  flags : MessageFlags
  repliesRead : Nat
  ret : Bool
deriving DecidableEq, Repr

/-- `j_kv_put_exec`, wire path (jkv.c:128-230).  `ret` starts `TRUE` and is
never assigned on this path.  The message's safety comes from
`j_message_set_safety(message, semantics)`; the
`j_message_force_safety(message, J_SEMANTICS_SAFETY_NETWORK)` call at
jkv.c:178 is commented out.  A reply is received (before the connection is
pushed back) only when the frame carries the network-safety flag
(jkv.c:214-222). -/
def j_kv_put_exec_wire (safety : JSemanticsSafety) (ops : List (String × Bytes)) :
    KvPutWireRun :=
  let flags := j_message_set_safety safety
  let _ := ops
  { flags := flags
    repliesRead := if flags.network then 1 else 0
    ret := true }

/-- Reply processing loop of `j_kv_get_exec` (jkv.c:424-451): per operation a
4-byte value length is read; `ret = (len > 0) && ret`; on `len > 0` the value
is copied into the caller's cell (`bson_copy_to`), otherwise the cell is left
untouched.  `cells` are the callers' out-parameters (`none` = never written),
`reply` the per-operation value payloads (`[]` = length 0 = miss).  The case
of a reply with fewer entries than operations is not reachable for well-formed
replies (one entry per operation). -/
def processGetReply : List (Option Bytes) → List Bytes → List (Option Bytes) × Bool
  | [], _ => ([], true)
  | c :: cs, [] => (c :: cs, false)
  | c :: cs, v :: vs =>
    let rest := processGetReply cs vs
    ((if v.length > 0 then some v else c) :: rest.1, (decide (v.length > 0)) && rest.2)

/-- Result of one KV get run over the wire. -/
structure KvGetWireRun where
  flags : MessageFlags
  repliesRead : Nat
  cells : List (Option Bytes)
  ret : Bool
deriving DecidableEq, Repr

/-- `j_kv_get_exec`, wire path (jkv.c:326-459).  `ret` starts `TRUE`.  The
message's safety again comes only from `j_message_set_safety` (the force call
at jkv.c:372 is commented out), but the reply is received unconditionally
(jkv.c:419-420) before the connection is pushed back. -/
def j_kv_get_exec_wire (safety : JSemanticsSafety) (keys : List String)
    (cells : List (Option Bytes)) (reply : List Bytes) : KvGetWireRun :=
  let flags := j_message_set_safety safety
  let _ := keys
  let processed := processGetReply cells reply
  { flags := flags
    repliesRead := 1
    cells := processed.1
    ret := processed.2 }

/-- Modelled from the spec: the batch engine (`jbatch.c` is not among the
sources) dispatches every run and aggregates the boolean results by logical
AND; a failing run does not stop the remaining runs ("the batch attempts
remaining runs regardless", §4.G).  Each run here is a KV get run given by its
keys, caller cells and reply payloads. -/
def j_batch_execute_kv_get_runs (safety : JSemanticsSafety)
    (runs : List (List String × List (Option Bytes) × List Bytes)) :
    List KvGetWireRun × Bool :=
  let results := runs.map (fun r => j_kv_get_exec_wire safety r.1 r.2.1 r.2.2)
  (results, results.foldl (fun acc r => r.ret && acc) true)

/-! ## LevelDB KV backend (src/backend/server/leveldb.c) -/

/-- A write-batch entry (`leveldb_writebatch_put` / `leveldb_writebatch_delete`). -/
inductive LevelDBWriteOp where
  | put (nskey : Bytes) (value : Bytes)
  | del (nskey : Bytes)
deriving DecidableEq, Repr

/-- The `JLevelDBBatch` struct (leveldb.c:30-35): an accumulated write batch, a
namespace and the safety class recorded by `backend_batch_start`. -/
structure JLevelDBBatch where
  batch : List LevelDBWriteOp
  nspace : Bytes
  safety : JSemanticsSafety
deriving DecidableEq, Repr

/-- LevelDB write options; `sync = true` is the fsync-equivalent durable
variant (`backend_write_options_sync`, configured via
`leveldb_writeoptions_set_sync` at leveldb.c:273). -/
structure WriteOptions where
  sync : Bool
deriving DecidableEq, Repr

/-- On-disk key encoding: `g_strdup_printf("%s:%s", namespace, key)` stored
with `strlen + 1` bytes, i.e. `<ns> ++ ":" ++ <key> ++ "\x00"` (58 is the
colon byte). -/
def encode_nskey (nspace key : Bytes) : Bytes :=
  nspace ++ [58] ++ key ++ [0]

/-- `backend_batch_start` (leveldb.c:53-70): creates an empty write batch and
records the namespace and safety class. -/
def backend_batch_start (nspace : Bytes) (safety : JSemanticsSafety) : JLevelDBBatch :=
  { batch := [], nspace := nspace, safety := safety }

/-- `backend_put` (leveldb.c:97-113): appends a put of the encoded key to the
write batch (always returns TRUE). -/
def backend_put (b : JLevelDBBatch) (key value : Bytes) : JLevelDBBatch :=
  { b with batch := b.batch ++ [LevelDBWriteOp.put (encode_nskey b.nspace key) value] }

/-- `backend_delete` (leveldb.c:115-130): appends a delete of the encoded key
(always returns TRUE). -/
def backend_delete (b : JLevelDBBatch) (key : Bytes) : JLevelDBBatch :=
  { b with batch := b.batch ++ [LevelDBWriteOp.del (encode_nskey b.nspace key)] }

/-- The database contents: an association list from encoded keys to values, in
LevelDB's key order. -/
abbrev LevelDB := List (Bytes × Bytes)

/-- Effect of a single write-batch entry on the database contents. -/
def leveldb_apply (db : LevelDB) : LevelDBWriteOp → LevelDB
  | LevelDBWriteOp.put k v => (db.filter (fun e => !(e.1 == k))) ++ [(k, v)]
  | LevelDBWriteOp.del k => db.filter (fun e => !(e.1 == k))

/-- `backend_batch_execute` (leveldb.c:72-95): commits the write batch with the
synchronous write options exactly when the batch's recorded safety is
`storage`, otherwise with the plain write options; returns TRUE. -/
def backend_batch_execute (db : LevelDB) (b : JLevelDBBatch) :
    WriteOptions × LevelDB × Bool :=
  let write_options :=
    if b.safety = JSemanticsSafety.storage then { sync := true } else { sync := false }
  (write_options, b.batch.foldl leveldb_apply db, true)

/-- A client-visible sequence of `backend_put` / `backend_delete` calls applied
to a batch (`some v` puts, `none` deletes). -/
def kv_batch_accumulate (b : JLevelDBBatch) : List (Bytes × Option Bytes) → JLevelDBBatch
  | [] => b
  | (k, some v) :: rest => kv_batch_accumulate (backend_put b k v) rest
  | (k, Option.none) :: rest => kv_batch_accumulate (backend_delete b k) rest

/-- `leveldb_get`: look an encoded key up in the database contents. -/
def leveldb_get (db : LevelDB) (k : Bytes) : Option Bytes :=
  (db.find? (fun e => e.1 == k)).map Prod.snd

/-- `backend_get` (leveldb.c:132-157): returns `(result != NULL)` and copies
the value into the caller's out-parameter only when the lookup succeeded
(`none` in the second component = out-parameter untouched). -/
def backend_get (db : LevelDB) (nspace key : Bytes) : Bool × Option Bytes :=
  match leveldb_get db (encode_nskey nspace key) with
  | some v => (true, some v)
  | Option.none => (false, Option.none)

/-! ## Object client: read/write enqueue and write execute (src/client/object/jobject.c)

The caller's byte counter `*bytes_read` / `*bytes_written` is threaded as an
`Option Nat` cell (`none` = the caller never initialized it and nothing wrote
it).  An enqueued operation record carries the cell it aliases; executing a run
returns the updated records. -/

/-- Whether a C function call terminated the process or returned normally.
`g_return_if_fail` (the guard used throughout the client) logs a critical
message and returns normally; `g_assert` / `abort` would be `aborted`. -/
inductive CallOutcome where
  | returned
  | aborted
deriving DecidableEq, Repr

/-- An enqueued object write (the `write` arm of `JObjectOperation`,
jobject.c:65-73) together with the caller's `bytes_written` cell. -/
structure ObjectWriteOp where
  length : Nat
  offset : Nat
  cell : Option Nat
deriving DecidableEq, Repr

/-- An enqueued object read (the `read` arm of `JObjectOperation`,
jobject.c:55-63) together with the caller's `bytes_read` cell. -/
structure ObjectReadOp where
  length : Nat
  offset : Nat
  cell : Option Nat
deriving DecidableEq, Repr

/-- `j_object_write` (jobject.c:1017-1048).  The four `g_return_if_fail`
guards (null object, null data, zero length, null counter) log and return
normally, leaving the batch and the caller's cell untouched; otherwise
`*bytes_written = 0` is performed immediately (jobject.c:1043) and the
operation is appended to the batch. -/
def j_object_write (object : Option JObject) (dataNull : Bool)
    (length offset : Nat) (cellNull : Bool) (cell : Option Nat)
    (batch : List ObjectWriteOp) :
    CallOutcome × Option Nat × List ObjectWriteOp :=
  if object.isNone || dataNull || (length == 0) || cellNull then
    (CallOutcome.returned, cell, batch)
  else
    (CallOutcome.returned, some 0,
      batch ++ [{ length := length, offset := offset, cell := some 0 }])

/-- `j_object_read` (jobject.c:966-997); the same guards, and
`*bytes_read = 0` at jobject.c:992. -/
def j_object_read (object : Option JObject) (dataNull : Bool)
    (length offset : Nat) (cellNull : Bool) (cell : Option Nat)
    (batch : List ObjectReadOp) :
    CallOutcome × Option Nat × List ObjectReadOp :=
  if object.isNone || dataNull || (length == 0) || cellNull then
    (CallOutcome.returned, cell, batch)
  else
    (CallOutcome.returned, some 0,
      batch ++ [{ length := length, offset := offset, cell := some 0 }])

/-- `j_helper_atomic_add` on a byte-counter cell (the cell is always
initialized to 0 at enqueue time before any execute can add to it). -/
def j_helper_atomic_add (cell : Option Nat) (n : Nat) : Option Nat :=
  cell.map (· + n)

/-- `j_object_write_exec`, wire path (jobject.c:497-642).  Per operation the
loop appends `(length, offset)` and the bulk data to the message and — when
the semantics' safety is `none` — immediately adds the full requested length
to the caller's counter (jobject.c:585-588).  After sending, a reply is
received only when the frame carries the network-safety flag, and the reply's
per-operation byte count is added to each counter via
`j_helper_atomic_add` (jobject.c:604-624). -/
def j_object_write_exec_wire (safety : JSemanticsSafety)
    (ops : List ObjectWriteOp) (reply : List Nat) :
    MessageFlags × List ObjectWriteOp :=
  let flags := j_message_set_safety safety
  let ops1 := ops.map (fun op =>
    if safety = JSemanticsSafety.none then
      { op with cell := j_helper_atomic_add op.cell op.length }
    else op)
  let ops2 :=
    if flags.network then
      (ops1.zip reply).map (fun p => { p.1 with cell := j_helper_atomic_add p.1.cell p.2 })
    else ops1
  (flags, ops2)

/-! ## Configuration search (src/lib/jconfiguration.c, src/lib/jcommon.c) -/

/-- The environment `j_configuration_new` consults: the `JULEA_CONFIG`
variable, GLib path predicates, the user configuration directory, the system
configuration directories, and the result of trying to load a key file from a
path (`none` = `g_key_file_load_from_file` failed). -/
structure ConfigEnv where
  julea_config : Option String
  absolute : String → Bool
  base_of : String → String
  user_config_dir : String
  system_config_dirs : List String
  load : String → Option GKeyFile

/-- `g_build_filename(dir, "julea", name, NULL)`. -/
def config_file_path (dir cname : String) : String :=
  dir ++ "/julea/" ++ cname

/-- The loop over `g_get_system_config_dirs()` (jconfiguration.c:180-194): the
first directory whose file loads determines the result (even when
`j_configuration_new_for_data` then rejects the data, the code jumps out). -/
def config_search_system_dirs (env : ConfigEnv) (cname : String) :
    List String → Option JConfiguration
  | [] => Option.none
  | d :: ds =>
    match env.load (config_file_path d cname) with
    | some kf => j_configuration_new_for_data kf
    | Option.none => config_search_system_dirs env cname ds

/-- The non-absolute search of `j_configuration_new` (jconfiguration.c:169-196):
first the user configuration directory, then each system configuration
directory in order. -/
def config_search (env : ConfigEnv) (cname : String) : Option JConfiguration :=
  match env.load (config_file_path env.user_config_dir cname) with
  | some kf => j_configuration_new_for_data kf
  | Option.none => config_search_system_dirs env cname env.system_config_dirs

/-- `j_configuration_new` (jconfiguration.c:130-205).  An absolute
`JULEA_CONFIG` is tried alone ("If we do not find the configuration file, stop
searching"); a non-absolute value contributes its basename as the
configuration name, defaulting to "julea". -/
def j_configuration_new (env : ConfigEnv) : Option JConfiguration :=
  match env.julea_config with
  | some ep =>
    if env.absolute ep then
      match env.load ep with
      | some kf => j_configuration_new_for_data kf
      | Option.none => Option.none
    else
      config_search env (env.base_of ep)
  | Option.none => config_search env "julea"

/-- Outcome of `j_init` (jcommon.c:130-209) as far as configuration is
concerned: `g_error` (fatal, process-terminating) when `j_configuration_new`
returned NULL, otherwise initialization continues with the configuration
(further steps such as backend loading are abstracted by `rest`). -/
inductive JInitResult where
  | ok (cfg : JConfiguration)
  | fatal
deriving DecidableEq, Repr

def j_init (env : ConfigEnv) (rest : JConfiguration → JInitResult) : JInitResult :=
  match j_configuration_new env with
  | some cfg => rest cfg
  | Option.none => JInitResult.fatal

/-- Declarative reading of the spec's search order: the first path in the list
whose file loads. -/
def first_loading_file (load : String → Option GKeyFile) :
    List String → Option GKeyFile
  | [] => Option.none
  | p :: ps =>
    match load p with
    | some kf => some kf
    | Option.none => first_loading_file load ps

/-! ## LevelDB iteration (src/backend/server/leveldb.c)

LevelDB's default comparator orders keys as byte strings,
lexicographically with shorter-is-smaller on exact-prefix ties; `blt` is that
strict order.  The database contents are an association list strictly sorted
by `blt` on the stored (encoded) keys, and `leveldb_iter_seek` positions the
iterator at the first entry whose key is not below the seek target. -/

/-- Strict byte-lexicographic order on byte strings (LevelDB's default key
comparator). -/
def blt : Bytes → Bytes → Bool
  | [], [] => false
  | [], _ :: _ => true
  | _ :: _, [] => false
  | a :: as, b :: bs => if a < b then true else if b < a then false else blt as bs

/-- The C-string view of a stored byte string: the bytes before the first NUL
(this is what `leveldb_iter_key` yields to `g_str_has_prefix`). -/
def cstr (b : Bytes) : Bytes :=
  b.takeWhile (fun c => !(c == 0))

/-- The `JLevelDBIterator` struct (leveldb.c:39-43): the remaining database
suffix the LevelDB iterator ranges over, plus the prefix recorded by
`backend_get_by_prefix`. -/
structure JLevelDBIterator where
  remaining : LevelDB
  pfx : Bytes
deriving DecidableEq, Repr

/-- `backend_get_by_prefix` (leveldb.c:186-212): records the prefix
`g_strdup_printf("%s:%s", namespace, prefix)` and seeks the fresh iterator to
it with `strlen + 1` bytes, i.e. to the first stored key not below
`<ns> ++ ":" ++ <prefix> ++ "\x00"` (for a database sorted by `blt`,
`dropWhile` of the strictly-below entries is exactly that seek). -/
def backend_get_by_prefix (db : LevelDB) (nspace p : Bytes) : JLevelDBIterator :=
  let pfx := nspace ++ [58] ++ p
  { remaining := db.dropWhile (fun e => blt e.1 (pfx ++ [0]))
    pfx := pfx }

/-- `backend_iterate` (leveldb.c:214-252): when the iterator is still valid and
the current key (as a C string) starts with the recorded prefix, yield the
value and advance; otherwise free the iterator and return FALSE (`none`). -/
def backend_iterate (it : JLevelDBIterator) : Option (Bytes × JLevelDBIterator) :=
  match it.remaining with
  | [] => Option.none
  | e :: rest =>
    if it.pfx.isPrefixOf (cstr e.1) then
      some (e.2, { remaining := rest, pfx := it.pfx })
    else
      Option.none

/-- All values yielded by repeated `backend_iterate` calls until it returns
FALSE. -/
def iterate_all : JLevelDBIterator → List Bytes
  | { remaining := [], pfx := _ } => []
  | { remaining := e :: rest, pfx := pfx } =>
    if pfx.isPrefixOf (cstr e.1) then
      e.2 :: iterate_all { remaining := rest, pfx := pfx }
    else
      []

/-- `iterate_all` is literally the unfolding of repeated `backend_iterate`
calls. -/
theorem iterate_all_eq_backend_iterate (it : JLevelDBIterator) :
    iterate_all it =
      match backend_iterate it with
      | some (v, it') => v :: iterate_all it'
      | Option.none => [] := by
  obtain ⟨rem, pfx⟩ := it
  cases rem with
  | nil => simp [iterate_all, backend_iterate]
  | cons e rest =>
    by_cases h : pfx.isPrefixOf (cstr e.1) = true
    · simp [iterate_all, backend_iterate, h]
    · simp [iterate_all, backend_iterate, h]

/-! ### Order lemmas for the byte-lexicographic comparator -/

theorem blt_irrefl : ∀ l : Bytes, blt l l = false
  | [] => rfl
  | a :: as => by simp [blt, blt_irrefl as]

theorem blt_trans : ∀ (a : Bytes), ∀ b c, blt a b = true → blt b c = true → blt a c = true := by
  intro a
  induction a with
  | nil =>
    intro b c hab hbc
    cases b with
    | nil => simp [blt] at hab
    | cons y ys =>
      cases c with
      | nil => simp [blt] at hbc
      | cons z zs => simp [blt]
  | cons x xs ih =>
    intro b c hab hbc
    cases b with
    | nil => simp [blt] at hab
    | cons y ys =>
      cases c with
      | nil => simp [blt] at hbc
      | cons z zs =>
        simp only [blt] at hab hbc ⊢
        by_cases hxy : x < y
        · by_cases hyz : y < z
          · rw [if_pos (Nat.lt_trans hxy hyz)]
          · by_cases hzy : z < y
            · rw [if_neg hyz, if_pos hzy] at hbc
              exact absurd hbc (by simp)
            · have hyzeq : y = z := Nat.le_antisymm (Nat.not_lt.mp hzy) (Nat.not_lt.mp hyz)
              subst hyzeq
              rw [if_pos hxy]
        · by_cases hyx : y < x
          · rw [if_neg hxy, if_pos hyx] at hab
            exact absurd hab (by simp)
          · have hxyeq : x = y := Nat.le_antisymm (Nat.not_lt.mp hyx) (Nat.not_lt.mp hxy)
            subst hxyeq
            rw [if_neg hxy, if_neg hxy] at hab
            by_cases hyz : x < z
            · rw [if_pos hyz]
            · by_cases hzy : z < x
              · rw [if_neg hyz, if_pos hzy] at hbc
                exact absurd hbc (by simp)
              · have hyzeq : x = z := Nat.le_antisymm (Nat.not_lt.mp hzy) (Nat.not_lt.mp hyz)
                subst hyzeq
                rw [if_neg hyz, if_neg hyz] at hbc
                rw [if_neg hyz, if_neg hyz]
                exact ih ys zs hab hbc

theorem blt_append_cancel : ∀ (x u v : Bytes), blt (x ++ u) (x ++ v) = blt u v
  | [], _, _ => rfl
  | a :: x, u, v => by simp [blt, blt_append_cancel x u v]

/-- A stored key extending the seek prefix is never strictly below the seek
target `pfx ++ [0]`. -/
theorem blt_extension_not_lt_target (pfx : Bytes) :
    ∀ s : Bytes, 0 ∉ s → blt (pfx ++ (s ++ [0])) (pfx ++ [0]) = false := by
  intro s hs
  rw [blt_append_cancel]
  cases s with
  | nil => simp [blt]
  | cons c s' =>
    have hc : c ≠ 0 := fun e => hs (by simp [e])
    simp [blt, Nat.pos_of_ne_zero hc]

/-- A NUL-free stored key that does not carry the prefix but is not below the
seek target is strictly above every stored key that does carry the prefix. -/
theorem blt_outside_after_target : ∀ (pfx raw : Bytes), 0 ∉ pfx → 0 ∉ raw →
    pfx.isPrefixOf raw = false → blt (raw ++ [0]) (pfx ++ [0]) = false →
    ∀ s : Bytes, blt (pfx ++ (s ++ [0])) (raw ++ [0]) = true := by
  intro pfx
  induction pfx with
  | nil =>
    intro raw _ _ hnp _ s
    simp [List.isPrefixOf] at hnp
  | cons a p' ih =>
    intro raw hp0 hr0 hnp hge s
    have ha : a ≠ 0 := fun e => hp0 (by simp [e])
    cases raw with
    | nil =>
      exfalso
      simp [blt, Nat.pos_of_ne_zero ha] at hge
    | cons b r' =>
      have hb : b ≠ 0 := fun e => hr0 (by simp [e])
      simp only [List.cons_append, blt] at hge ⊢
      by_cases hab : a < b
      · simp [hab]
      · by_cases hba : b < a
        · simp [hba] at hge
        · have heq : a = b := Nat.le_antisymm (Nat.not_lt.mp hba) (Nat.not_lt.mp hab)
          subst heq
          simp only [lt_self_iff_false, if_false] at hge ⊢
          have hnp' : p'.isPrefixOf r' = false := by
            simp [List.isPrefixOf] at hnp
            exact hnp
          exact ih r' (fun m => hp0 (List.mem_cons_of_mem a m))
            (fun m => hr0 (List.mem_cons_of_mem a m)) hnp' hge s

theorem cstr_append_zero : ∀ (raw : Bytes), 0 ∉ raw → cstr (raw ++ [0]) = raw
  | [], _ => rfl
  | a :: t, h => by
    have ha : a ≠ 0 := fun e => h (by simp [e])
    simp only [cstr, List.cons_append, List.takeWhile_cons]
    rw [if_pos (by simp [ha])]
    have := cstr_append_zero t (fun m => h (List.mem_cons_of_mem a m))
    simp only [cstr] at this
    rw [this]

/-- In a strictly sorted list, scanning with `takeWhile` from the seek point
yields exactly the matching entries of the whole list, provided matching
entries are never below the seek target and non-matching entries at or after
the target are above every matching entry. -/
theorem sorted_seek_takeWhile_eq_filter {α : Type} (lt : α → α → Bool)
    (P : α → Bool) (t0 : α)
    (htrans : ∀ a b c, lt a b = true → lt b c = true → lt a c = true)
    (hirr : ∀ a, lt a a = false) :
    ∀ l : List α, l.Pairwise (fun a b => lt a b = true) →
      (∀ a ∈ l, P a = true → lt a t0 = false) →
      (∀ a ∈ l, ∀ b ∈ l, P a = false → lt a t0 = false → P b = true → lt b a = true) →
      (l.dropWhile (fun a => lt a t0)).takeWhile P = l.filter P := by
  intro l
  induction l with
  | nil => intro _ _ _; rfl
  | cons x t ih =>
    intro hpw hA hB
    have hxt : ∀ y ∈ t, lt x y = true := (List.pairwise_cons.mp hpw).1
    have hpt : t.Pairwise (fun a b => lt a b = true) := (List.pairwise_cons.mp hpw).2
    by_cases hQ : lt x t0 = true
    · rw [List.dropWhile_cons_of_pos (by simpa using hQ)]
      have hPx : P x = false := by
        cases hPx : P x with
        | false => rfl
        | true => exact absurd hQ (by simp [hA x (List.mem_cons_self x t) hPx])
      rw [List.filter_cons_of_neg (by simp [hPx])]
      exact ih hpt (fun a ha => hA a (List.mem_cons_of_mem x ha))
        (fun a ha b hb => hB a (List.mem_cons_of_mem x ha) b (List.mem_cons_of_mem x hb))
    · have hQ' : lt x t0 = false := by simpa using hQ
      rw [List.dropWhile_cons_of_neg (by simp [hQ'])]
      by_cases hP : P x = true
      · rw [List.takeWhile_cons_of_pos hP, List.filter_cons_of_pos hP]
        have hdrop : t.dropWhile (fun a => lt a t0) = t := by
          cases t with
          | nil => rfl
          | cons y t' =>
            have hy : lt y t0 = false := by
              cases hyt : lt y t0 with
              | false => rfl
              | true =>
                exact absurd (htrans x y t0 (hxt y (List.mem_cons_self y t')) hyt) (by simp [hQ'])
            exact List.dropWhile_cons_of_neg (by simp [hy])
        have := ih hpt (fun a ha => hA a (List.mem_cons_of_mem x ha))
          (fun a ha b hb => hB a (List.mem_cons_of_mem x ha) b (List.mem_cons_of_mem x hb))
        rw [hdrop] at this
        rw [this]
      · have hPx : P x = false := by simpa using hP
        rw [List.takeWhile_cons_of_neg (by simp [hPx]), List.filter_cons_of_neg (by simp [hPx])]
        have hnone : ∀ z ∈ t, P z = false := by
          intro z hz
          cases hPz : P z with
          | false => rfl
          | true =>
            have h1 : lt z x = true :=
              hB x (List.mem_cons_self x t) z (List.mem_cons_of_mem x hz) hPx hQ' hPz
            have h2 : lt x z = true := hxt z hz
            exact absurd (htrans z x z h1 h2) (by simp [hirr z])
        have : t.filter P = [] := by
          rw [List.filter_eq_nil_iff]
          intro a ha
          simp [hnone a ha]
        rw [this]

/-- Repeated iteration is a `takeWhile` on the iterator's remaining suffix. -/
theorem iterate_all_spec : ∀ (l : LevelDB) (pfx : Bytes),
    iterate_all { remaining := l, pfx := pfx }
      = (l.takeWhile (fun e => pfx.isPrefixOf (cstr e.1))).map Prod.snd
  | [], _ => by simp [iterate_all]
  | e :: rest, pfx => by
    cases h : pfx.isPrefixOf (cstr e.1) with
    | true =>
      simp only [iterate_all, h, if_true, List.takeWhile_cons, List.map_cons]
      rw [iterate_all_spec rest pfx]
    | false =>
      simp [iterate_all, h, List.takeWhile_cons]

/-- With colon-free namespaces, an encoded prefix `<ns>:<p>` matches an encoded
key `<n>:<k>` exactly for the same namespace and a key starting with `p`. -/
theorem nskey_prefix_characterization :
    ∀ (ns n : Bytes), 58 ∉ ns → 58 ∉ n → ∀ (p k : Bytes),
      ((ns ++ [58] ++ p).isPrefixOf (n ++ [58] ++ k) = true
        ↔ n = ns ∧ p.isPrefixOf k = true) := by
  intro ns
  induction ns with
  | nil =>
    intro n hns hn p k
    cases n with
    | nil => simp [List.isPrefixOf]
    | cons b n' =>
      have hb : b ≠ 58 := fun e => hn (by simp [e])
      simp [List.isPrefixOf, Ne.symm hb]
  | cons a ns' ih =>
    intro n hns hn p k
    have ha : a ≠ 58 := fun e => hns (by simp [e])
    cases n with
    | nil =>
      simp [List.isPrefixOf, ha]
    | cons b n' =>
      by_cases hab : a = b
      · subst hab
        have : ((a :: ns' ++ [58] ++ p).isPrefixOf (a :: n' ++ [58] ++ k) = true)
            ↔ ((ns' ++ [58] ++ p).isPrefixOf (n' ++ [58] ++ k) = true) := by
          simp [List.isPrefixOf]
        rw [List.cons_append, List.cons_append, List.cons_append, List.cons_append] at this ⊢
        rw [this, ih n' (fun m => hns (List.mem_cons_of_mem a m))
          (fun m => hn (List.mem_cons_of_mem a m)) p k]
        simp
      · constructor
        · intro h
          rw [List.cons_append, List.cons_append, List.cons_append, List.cons_append] at h
          simp only [List.isPrefixOf, Bool.and_eq_true, beq_iff_eq] at h
          exact absurd h.1 hab
        · rintro ⟨heq, -⟩
          injection heq with h1 _
          exact absurd h1.symm hab

/-- C5: on a database strictly sorted in LevelDB's byte order whose stored
keys are NUL-terminated encodings, `get_by_prefix(ns, p)` followed by repeated
`iterate` calls yields the values of all and only the stored keys carrying the
encoded prefix `<ns>:<p>` (in database order, stopping at the first key
outside the prefix, `iterate` returning FALSE exactly then); and for keys
stored under the encoding `<ns>:<key>\x00` with colon-free namespaces, that
prefix test holds exactly for the keys of namespace `ns` starting with `p`. -/
theorem c5_get_by_prefix_iteration
    (db : LevelDB)
    (hsorted : db.Pairwise (fun a b => blt a.1 b.1 = true))
    (hkeys : ∀ e ∈ db, ∃ raw : Bytes, 0 ∉ raw ∧ e.1 = raw ++ [0])
    (nspace p : Bytes) (h0ns : 0 ∉ nspace) (h58ns : 58 ∉ nspace) (h0p : 0 ∉ p) :
    iterate_all ( backend_get_by_prefix db nspace p)
      = (db.filter (fun e => (nspace ++ [58] ++ p).isPrefixOf (cstr e.1))).map Prod.snd
    ∧ ∀ n k : Bytes, 58 ∉ n → 0 ∉ n → 0 ∉ k →
        ((nspace ++ [58] ++ p).isPrefixOf (cstr (encode_nskey n k)) = true
          ↔ n = nspace ∧ p.isPrefixOf k = true) := by
  have h0pfx : 0 ∉ nspace ++ [58] ++ p := by
    intro hm
    rcases List.mem_append.mp hm with hm1 | hm2
    · rcases List.mem_append.mp hm1 with hm3 | hm4
      · exact h0ns hm3
      · simp at hm4
    · exact h0p hm2
  constructor
  · have hA : ∀ a ∈ db, ((nspace ++ [58] ++ p).isPrefixOf (cstr a.1) = true) →
        blt a.1 ((nspace ++ [58] ++ p) ++ [0]) = false := by
      intro a ha hPa
      obtain ⟨raw, h0raw, hkey⟩ := hkeys a ha
      rw [hkey] at hPa ⊢
      rw [cstr_append_zero raw h0raw] at hPa
      obtain ⟨s, hs⟩ := List.isPrefixOf_iff_prefix.mp hPa
      subst hs
      have h0s : 0 ∉ s := fun hm => h0raw (List.mem_append.mpr (Or.inr hm))
      have hext := blt_extension_not_lt_target (nspace ++ [58] ++ p) s h0s
      rw [← List.append_assoc] at hext
      exact hext
    have hB : ∀ a ∈ db, ∀ b ∈ db,
        ((nspace ++ [58] ++ p).isPrefixOf (cstr a.1) = false) →
        blt a.1 ((nspace ++ [58] ++ p) ++ [0]) = false →
        ((nspace ++ [58] ++ p).isPrefixOf (cstr b.1) = true) →
        blt b.1 a.1 = true := by
      intro a ha b hb hPa hQa hPb
      obtain ⟨ra, h0ra, hka⟩ := hkeys a ha
      obtain ⟨rb, h0rb, hkb⟩ := hkeys b hb
      rw [hka] at hPa hQa ⊢
      rw [hkb] at hPb ⊢
      rw [cstr_append_zero ra h0ra] at hPa
      rw [cstr_append_zero rb h0rb] at hPb
      obtain ⟨sb, hsb⟩ := List.isPrefixOf_iff_prefix.mp hPb
      subst hsb
      have hout := blt_outside_after_target (nspace ++ [58] ++ p) ra h0pfx h0ra hPa hQa sb
      rw [← List.append_assoc] at hout
      exact hout
    have hseek := sorted_seek_takeWhile_eq_filter (fun a b : Bytes × Bytes => blt a.1 b.1)
      (fun e : Bytes × Bytes => (nspace ++ [58] ++ p).isPrefixOf (cstr e.1))
      (((nspace ++ [58] ++ p) ++ [0]), ([] : Bytes))
      (fun a b c hab hbc => blt_trans a.1 b.1 c.1 hab hbc)
      (fun a => blt_irrefl a.1) db hsorted hA hB
    show iterate_all
        { remaining := db.dropWhile (fun e => blt e.1 ((nspace ++ [58] ++ p) ++ [0]))
          pfx := nspace ++ [58] ++ p } = _
    rw [iterate_all_spec, hseek]
  · intro n k h58n h0n h0k
    have hcs : cstr (encode_nskey n k) = n ++ [58] ++ k := by
      unfold encode_nskey
      apply cstr_append_zero
      intro hm
      rcases List.mem_append.mp hm with hm1 | hm2
      · rcases List.mem_append.mp hm1 with hm3 | hm4
        · exact h0n hm3
        · simp at hm4
      · exact h0k hm2
    rw [hcs]
    exact nskey_prefix_characterization nspace n h58ns h58n p k

/-! ## Claim theorems -/

/-- C1: contrary to the claim, the effective safety of KV put and get runs
over the wire is not upgraded to `network`: under `safety = none` the put
frame is sent without the `SAFETY_NETWORK` flag and no reply is read before
the connection returns to the pool, and the get frame likewise lacks the flag
(the get path does read a reply unconditionally) — the
`j_message_force_safety` calls are commented out in the code whose own
comment documents the upgrade. -/
theorem c1_kv_safety_not_upgraded :
    (j_kv_put_exec_wire JSemanticsSafety.none [("k", [1])]).flags.network = false
    ∧ (j_kv_put_exec_wire JSemanticsSafety.none [("k", [1])]).repliesRead = 0
    ∧ (j_kv_put_exec_wire JSemanticsSafety.none [("k", [1])]).ret = true
    ∧ (j_kv_get_exec_wire JSemanticsSafety.none ["k"] [Option.none] [[1]]).flags.network = false
    ∧ (j_kv_get_exec_wire JSemanticsSafety.none ["k"] [Option.none] [[1]]).repliesRead = 1 :=
  ⟨rfl, rfl, rfl, rfl, rfl⟩

/-- C2: contrary to the claim, an object create / delete / status run whose
backend calls all succeed still reports failure: `ret` is initialized to
`FALSE` and only ever conjoined into, so these three execute functions return
`FALSE` on every input (evaluated here at a one-operation run over an
all-succeeding backend, and in general). -/
theorem c2_object_runs_never_report_success :
    j_object_create_exec (some allTrueObjectBackend) [("ns", "obj")] = false
    ∧ j_object_delete_exec (some allTrueObjectBackend) [("ns", "obj")] = false
    ∧ j_object_status_exec (some allTrueObjectBackend) [("ns", "obj")] = false
    ∧ (∀ b ops, j_object_create_exec b ops = false)
    ∧ (∀ b ops, j_object_delete_exec b ops = false)
    ∧ (∀ b ops, j_object_status_exec b ops = false) := by
  refine ⟨rfl, rfl, rfl, ?_, ?_, ?_⟩ <;> intro b ops <;> cases b with
  | none => rfl
  | some fns =>
    exact foldl_and_absorb_false _ (fun o => by simp) ops

theorem kv_batch_accumulate_safety :
    ∀ (calls : List (Bytes × Option Bytes)) (b : JLevelDBBatch),
      (kv_batch_accumulate b calls).safety = b.safety
  | [], _ => rfl
  | (_, some v) :: rest, b =>
    (kv_batch_accumulate_safety rest (backend_put b _ v)).trans rfl
  | (_, Option.none) :: rest, b =>
    (kv_batch_accumulate_safety rest (backend_delete b _)).trans rfl

/-- C6: a LevelDB write batch started with safety `storage` commits with the
synchronous (durable) write options, and one started with any lower safety
class commits with the non-synchronous options, whatever sequence of puts and
deletes was accumulated into the batch. -/
theorem c6_batch_execute_durability (db : LevelDB) (nspace : Bytes)
    (safety : JSemanticsSafety) (calls : List (Bytes × Option Bytes)) :
    ((backend_batch_execute db
        (kv_batch_accumulate (backend_batch_start nspace safety) calls)).1).sync
      = decide (safety = JSemanticsSafety.storage) := by
  have h : (kv_batch_accumulate (backend_batch_start nspace safety) calls).safety = safety :=
    kv_batch_accumulate_safety calls (backend_batch_start nspace safety)
  simp only [backend_batch_execute]
  rw [h]
  by_cases hs : safety = JSemanticsSafety.storage
  · simp [hs]
  · simp [hs]

/-- C7: `j_object_new` and `j_kv_new` derive the handle's server index as
`hash(name) mod` the respective server count (hence strictly below the count,
which every configuration built by `j_configuration_new_for_data` keeps
positive), and the `*_new_for_index` variants accept an explicit index exactly
when it is strictly below the respective count, returning NULL otherwise. -/
theorem c7_server_index_derivation (hash : String → Nat) (cfg : JConfiguration)
    (hobj : 0 < j_configuration_get_object_server_count cfg)
    (hkv : 0 < j_configuration_get_kv_server_count cfg)
    (nspace name key : String) :
    (j_object_new hash cfg nspace name).index
        = hash name % j_configuration_get_object_server_count cfg
    ∧ (j_object_new hash cfg nspace name).index
        < j_configuration_get_object_server_count cfg
    ∧ (j_kv_new hash cfg nspace key).index
        = hash key % j_configuration_get_kv_server_count cfg
    ∧ (j_kv_new hash cfg nspace key).index < j_configuration_get_kv_server_count cfg
    ∧ (∀ i, (j_object_new_for_index cfg i nspace name).isSome
        ↔ i < j_configuration_get_object_server_count cfg)
    ∧ (∀ i, (j_kv_new_for_index cfg i nspace key).isSome
        ↔ i < j_configuration_get_kv_server_count cfg)
    ∧ (∀ kf c, j_configuration_new_for_data kf = some c →
        0 < j_configuration_get_object_server_count c
        ∧ 0 < j_configuration_get_kv_server_count c) := by
  refine ⟨rfl, Nat.mod_lt _ hobj, rfl, Nat.mod_lt _ hkv, ?_, ?_, ?_⟩
  · intro i
    unfold j_object_new_for_index
    by_cases hi : i < j_configuration_get_object_server_count cfg
    · simp [hi]
    · simp [hi]
  · intro i
    unfold j_kv_new_for_index
    by_cases hi : i < j_configuration_get_kv_server_count cfg
    · simp [hi]
    · simp [hi]
  · intro kf c h
    unfold j_configuration_new_for_data at h
    by_cases hc : (strv_null_or_empty kf.servers_object || strv_null_or_empty kf.servers_kv
        || kf.object_backend.isNone || kf.object_component.isNone || kf.object_path.isNone
        || kf.kv_backend.isNone || kf.kv_component.isNone || kf.kv_path.isNone) = true
    · rw [if_pos hc] at h
      exact absurd h (by simp)
    · rw [if_neg hc] at h
      have hparts := hc
      simp only [Bool.or_eq_true, not_or] at hparts
      have hso : strv_null_or_empty kf.servers_object = false := by
        cases hq : strv_null_or_empty kf.servers_object with
        | false => rfl
        | true => exact absurd hq hparts.1.1.1.1.1.1.1
      have hsk : strv_null_or_empty kf.servers_kv = false := by
        cases hq : strv_null_or_empty kf.servers_kv with
        | false => rfl
        | true => exact absurd hq hparts.1.1.1.1.1.1.2
      injection h with h
      subst h
      constructor
      · show 0 < (kf.servers_object.getD []).length
        cases hso' : kf.servers_object with
        | none => rw [hso'] at hso; simp [strv_null_or_empty] at hso
        | some l =>
          rw [hso'] at hso
          simp only [strv_null_or_empty] at hso
          cases l with
          | nil => simp at hso
          | cons a t => simp
      · show 0 < (kf.servers_kv.getD []).length
        cases hsk' : kf.servers_kv with
        | none => rw [hsk'] at hsk; simp [strv_null_or_empty] at hsk
        | some l =>
          rw [hsk'] at hsk
          simp only [strv_null_or_empty] at hsk
          cases l with
          | nil => simp at hsk
          | cons a t => simp

/-- C3 counterexample: a valid `j_object_write` call writes
`*bytes_written = 0` already at enqueue time, so with the batch never executed
the caller's counter is not left unchanged (here it changes from
uninitialized to 0), refuting the claimed "written iff the batch executes". -/
theorem c3_counterexample_enqueue_writes_counter :
    (j_object_write (some { index := 0, nspace := "ns", name := "obj" }) false 6 10 false
        Option.none []).2.1 = some 0
    ∧ some 0 ≠ (Option.none : Option Nat) :=
  ⟨rfl, Option.some_ne_none 0⟩

/-- C3 (amended): a valid read/write enqueue zeroes the caller's counter
immediately — even if the batch is never executed, as the code's own note
says; on execution of a write run over the wire under `safety = none` the
client adds each operation's full requested length without the frame carrying
the network flag (so no reply is read), and under `safety ≥ network` it
instead adds the per-operation byte count taken from the reply via an atomic
add. -/
theorem c3_write_counter_discipline :
    (∀ obj len off cell batch, len ≠ 0 →
      j_object_write (some obj) false len off false cell batch
        = (CallOutcome.returned, some 0,
            batch ++ [{ length := len, offset := off, cell := some 0 }]))
    ∧ (∀ obj len off cell batch, len ≠ 0 →
      j_object_read (some obj) false len off false cell batch
        = (CallOutcome.returned, some 0,
            batch ++ [{ length := len, offset := off, cell := some 0 }]))
    ∧ (∀ ops reply,
      (j_object_write_exec_wire JSemanticsSafety.none ops reply).1.network = false
      ∧ (j_object_write_exec_wire JSemanticsSafety.none ops reply).2
          = ops.map (fun op => { op with cell := j_helper_atomic_add op.cell op.length }))
    ∧ (∀ safety ops reply, safety ≠ JSemanticsSafety.none →
      (j_object_write_exec_wire safety ops reply).2
        = (ops.zip reply).map
            (fun q => { q.1 with cell := j_helper_atomic_add q.1.cell q.2 })) := by
  refine ⟨?_, ?_, ?_, ?_⟩
  · intro obj len off cell batch hlen
    have h0 : (len == 0) = false := by simpa using hlen
    simp [j_object_write, h0]
  · intro obj len off cell batch hlen
    have h0 : (len == 0) = false := by simpa using hlen
    simp [j_object_read, h0]
  · intro ops reply
    constructor
    · rfl
    · simp [j_object_write_exec_wire, j_message_set_safety]
  · intro safety ops reply hs
    cases safety with
    | none => exact absurd rfl hs
    | network => simp [j_object_write_exec_wire, j_message_set_safety]
    | storage => simp [j_object_write_exec_wire, j_message_set_safety]

/-- C3 witness: the amended behavior at a concrete write of 6 bytes at offset
10 and a reply reporting 4 bytes written. -/
theorem c3_write_counter_discipline_witness :
    j_object_write (some { index := 0, nspace := "ns", name := "obj" }) false 6 10 false
        Option.none []
      = (CallOutcome.returned, some 0, [{ length := 6, offset := 10, cell := some 0 }])
    ∧ (j_object_write_exec_wire JSemanticsSafety.network
        [{ length := 6, offset := 10, cell := some 0 }] [4]).2
      = [{ length := 6, offset := 10, cell := some 4 }] := by
  constructor
  · exact c3_write_counter_discipline.1 { index := 0, nspace := "ns", name := "obj" }
      6 10 Option.none [] (by decide)
  · rw [c3_write_counter_discipline.2.2.2 JSemanticsSafety.network
      [{ length := 6, offset := 10, cell := some 0 }] [4] (by decide)]
    rfl

theorem processGetReply_miss :
    ∀ (cells : List (Option Bytes)) (reply : List Bytes) (i : Nat),
      reply.length = cells.length → reply.get? i = some [] →
      (processGetReply cells reply).2 = false
      ∧ (processGetReply cells reply).1.get? i = cells.get? i := by
  intro cells
  induction cells with
  | nil =>
    intro reply i hlen hi
    rw [List.length_nil, List.length_eq_zero] at hlen
    subst hlen
    simp at hi
  | cons c cs ih =>
    intro reply i hlen hi
    cases reply with
    | nil => simp at hlen
    | cons v vs =>
      simp only [List.length_cons, Nat.succ.injEq] at hlen
      cases i with
      | zero =>
        simp only [List.get?] at hi
        injection hi with hv
        subst hv
        simp [processGetReply]
      | succ j =>
        simp only [List.get?] at hi
        have := ih vs j hlen hi
        simp only [processGetReply, List.get?]
        exact ⟨by rw [this.1, Bool.and_false], this.2⟩

theorem processGetReply_hit :
    ∀ (cells : List (Option Bytes)) (reply : List Bytes) (j : Nat) (v : Bytes),
      reply.length = cells.length → reply.get? j = some v → v ≠ [] →
      (processGetReply cells reply).1.get? j = some (some v) := by
  intro cells
  induction cells with
  | nil =>
    intro reply j v hlen hj hv
    rw [List.length_nil, List.length_eq_zero] at hlen
    subst hlen
    simp at hj
  | cons c cs ih =>
    intro reply j v hlen hj hv
    cases reply with
    | nil => simp at hlen
    | cons w ws =>
      simp only [List.length_cons, Nat.succ.injEq] at hlen
      cases j with
      | zero =>
        simp only [List.get?] at hj
        injection hj with hw
        subst hw
        have hpos : 0 < w.length := List.length_pos.mpr hv
        simp [processGetReply, hpos]
      | succ j' =>
        simp only [List.get?] at hj
        simp only [processGetReply, List.get?]
        exact ih ws j' v hlen hj hv

theorem foldl_and_ret : ∀ (l : List KvGetWireRun) (acc : Bool),
    l.foldl (fun acc r => r.ret && acc) acc = ((l.map (fun r => r.ret)).all id && acc)
  | [], acc => by simp
  | r :: t, acc => by
    rw [List.foldl_cons, foldl_and_ret t (r.ret && acc), List.map_cons, List.all_cons]
    cases hall : (t.map (fun r => r.ret)).all id <;> cases hr : r.ret <;> cases acc <;> simp

/-- C4: over the wire a reply value length of 0 denotes a missing key — the
get run returns FALSE, the missing key's caller cell is left unwritten, while
every hit's cell receives its value; `backend_get` reports a miss as FALSE
with the out-parameter untouched; and the (spec-modelled) batch engine still
executes all remaining runs, aggregating the booleans by conjunction. -/
theorem c4_kv_get_miss_reporting :
    (∀ safety keys cells reply i,
      reply.length = cells.length → reply.get? i = some [] →
      (j_kv_get_exec_wire safety keys cells reply).ret = false
      ∧ (j_kv_get_exec_wire safety keys cells reply).cells.get? i = cells.get? i)
    ∧ (∀ safety keys cells reply j v,
      reply.length = cells.length → reply.get? j = some v → v ≠ [] →
      (j_kv_get_exec_wire safety keys cells reply).cells.get? j = some (some v))
    ∧ (∀ db nspace key, (backend_get db nspace key).1 = false
        ↔ leveldb_get db (encode_nskey nspace key) = Option.none)
    ∧ (∀ db nspace key, (backend_get db nspace key).1 = false →
        (backend_get db nspace key).2 = Option.none)
    ∧ (∀ safety runs i, i < runs.length →
      (j_batch_execute_kv_get_runs safety runs).1.get? i
        = (runs.get? i).map (fun r => j_kv_get_exec_wire safety r.1 r.2.1 r.2.2))
    ∧ (∀ safety runs,
      (j_batch_execute_kv_get_runs safety runs).2
        = ((j_batch_execute_kv_get_runs safety runs).1.map (fun r => r.ret)).all id) := by
  refine ⟨?_, ?_, ?_, ?_, ?_, ?_⟩
  · intro safety keys cells reply i hlen hi
    exact processGetReply_miss cells reply i hlen hi
  · intro safety keys cells reply j v hlen hj hv
    exact processGetReply_hit cells reply j v hlen hj hv
  · intro db nspace key
    unfold backend_get
    cases h : leveldb_get db (encode_nskey nspace key) with
    | none => simp
    | some v => simp
  · intro db nspace key
    unfold backend_get
    cases h : leveldb_get db (encode_nskey nspace key) with
    | none => simp
    | some v => simp
  · intro safety runs i _
    simp [j_batch_execute_kv_get_runs, List.get?_eq_getElem?, List.getElem?_map]
  · intro safety runs
    simp only [j_batch_execute_kv_get_runs]
    rw [foldl_and_ret, Bool.and_true]

/-- C4 witness: a two-operation run whose first key misses (reply length 0)
and whose second hits with value bytes `[7]`. -/
theorem c4_kv_get_miss_reporting_witness :
    (j_kv_get_exec_wire JSemanticsSafety.none ["a", "b"]
        [Option.none, Option.none] [[], [7]]).ret = false
    ∧ (j_kv_get_exec_wire JSemanticsSafety.none ["a", "b"]
        [Option.none, Option.none] [[], [7]]).cells.get? 0 = some Option.none
    ∧ (j_kv_get_exec_wire JSemanticsSafety.none ["a", "b"]
        [Option.none, Option.none] [[], [7]]).cells.get? 1 = some (some [7]) := by
  have h1 := (c4_kv_get_miss_reporting.1 JSemanticsSafety.none ["a", "b"]
    [Option.none, Option.none] [[], [7]] 0 (by decide) (by decide))
  have h2 := (c4_kv_get_miss_reporting.2.1 JSemanticsSafety.none ["a", "b"]
    [Option.none, Option.none] [[], [7]] 1 [7] (by decide) (by decide) (by decide))
  exact ⟨h1.1, h1.2.trans (by decide), h2⟩

theorem config_search_system_dirs_eq_first_load (env : ConfigEnv) (cname : String) :
    ∀ dirs : List String,
      config_search_system_dirs env cname dirs
        = (first_loading_file env.load
            (dirs.map (fun d => config_file_path d cname))).bind j_configuration_new_for_data
  | [] => rfl
  | d :: ds => by
    simp only [config_search_system_dirs, List.map_cons, first_loading_file]
    cases h : env.load (config_file_path d cname) with
    | none => simpa using config_search_system_dirs_eq_first_load env cname ds
    | some kf => simp

theorem config_search_eq_first_load (env : ConfigEnv) (cname : String) :
    config_search env cname
      = (first_loading_file env.load
          (config_file_path env.user_config_dir cname
            :: env.system_config_dirs.map (fun d => config_file_path d cname))).bind
          j_configuration_new_for_data := by
  simp only [config_search, first_loading_file]
  cases h : env.load (config_file_path env.user_config_dir cname) with
  | none => simpa using config_search_system_dirs_eq_first_load env cname env.system_config_dirs
  | some kf => simp

/-- C8: `j_configuration_new` follows the claimed selection order.  With
`JULEA_CONFIG` set to an absolute path, only that file is tried: the outcome
is the loaded file's data (NULL when it fails to load, with no fallback
search).  Otherwise the configuration name — the basename of `JULEA_CONFIG`,
or "julea" when unset — is looked up in the user configuration directory and
then in each system configuration directory in order, the first file that
loads deciding the outcome.  When no configuration results, `j_init` fails
fatally. -/
theorem c8_configuration_search_order (env : ConfigEnv) :
    (∀ ep, env.julea_config = some ep → env.absolute ep = true →
      j_configuration_new env = (env.load ep).bind j_configuration_new_for_data)
    ∧ (∀ cname,
      ((env.julea_config = Option.none ∧ cname = "julea")
        ∨ (∃ ep, env.julea_config = some ep ∧ env.absolute ep = false
            ∧ cname = env.base_of ep)) →
      j_configuration_new env
        = (first_loading_file env.load
            (config_file_path env.user_config_dir cname
              :: env.system_config_dirs.map (fun d => config_file_path d cname))).bind
            j_configuration_new_for_data)
    ∧ (∀ rest, j_configuration_new env = Option.none →
      j_init env rest = JInitResult.fatal) := by
  refine ⟨?_, ?_, ?_⟩
  · intro ep hep habs
    simp only [j_configuration_new, hep, habs, if_true]
    cases h : env.load ep with
    | none => simp
    | some kf => simp
  · intro cname hc
    rcases hc with ⟨hnone, hname⟩ | ⟨ep, hep, habs, hname⟩
    · subst hname
      simp only [j_configuration_new, hnone]
      exact config_search_eq_first_load env "julea"
    · subst hname
      simp only [j_configuration_new, hep, habs, Bool.false_eq_true, if_false]
      exact config_search_eq_first_load env (env.base_of ep)
  · intro rest h
    simp [j_init, h]

/-- C8 witness: an absolute `JULEA_CONFIG` pointing at a file that fails to
load yields NULL (no fallback), and initialization is fatal. -/
theorem c8_configuration_search_order_witness :
    j_configuration_new
        { julea_config := some "/etc/julea-abs"
          absolute := fun _ => true
          base_of := fun s => s
          user_config_dir := "/home/u/.config"
          system_config_dirs := ["/etc/xdg"]
          load := fun _ => Option.none }
      = Option.none
    ∧ j_init
        { julea_config := some "/etc/julea-abs"
          absolute := fun _ => true
          base_of := fun s => s
          user_config_dir := "/home/u/.config"
          system_config_dirs := ["/etc/xdg"]
          load := fun _ => Option.none }
        (fun c => JInitResult.ok c)
      = JInitResult.fatal := by
  have h1 := (c8_configuration_search_order
    { julea_config := some "/etc/julea-abs"
      absolute := fun _ => true
      base_of := fun s => s
      user_config_dir := "/home/u/.config"
      system_config_dirs := ["/etc/xdg"]
      load := fun _ => Option.none }).1 "/etc/julea-abs" rfl rfl
  have h1' : j_configuration_new
      { julea_config := some "/etc/julea-abs"
        absolute := fun _ => true
        base_of := fun s => s
        user_config_dir := "/home/u/.config"
        system_config_dirs := ["/etc/xdg"]
        load := fun _ => Option.none } = Option.none := by
    simpa using h1
  have h2 := (c8_configuration_search_order
    { julea_config := some "/etc/julea-abs"
      absolute := fun _ => true
      base_of := fun s => s
      user_config_dir := "/home/u/.config"
      system_config_dirs := ["/etc/xdg"]
      load := fun _ => Option.none }).2.2 (fun c => JInitResult.ok c) h1'
  exact ⟨h1', h2⟩

/-- C9 counterexample: a zero-length `j_object_read` call (a claimed
precondition violation) does not abort — the `g_return_if_fail` guard makes
it return normally, leaving the caller's counter and the batch unchanged,
refuting the claimed assertion-class failure. -/
theorem c9_counterexample_guard_returns :
    j_object_read (some { index := 0, nspace := "ns", name := "obj" }) false 0 0 false
        Option.none []
      = (CallOutcome.returned, Option.none, [])
    ∧ CallOutcome.returned ≠ CallOutcome.aborted :=
  ⟨rfl, by decide⟩

/-- C9 (amended): violated preconditions are runtime-recoverable — the
`g_return_if_fail` guards of `j_object_read` / `j_object_write` log a critical
message and return normally with nothing enqueued and the out-parameter
untouched, and `j_kv_new_for_index` with an out-of-range index returns NULL;
no abort happens at the call site. -/
theorem c9_precondition_violations_recoverable :
    (∀ object dataNull len off cellNull cell batch,
      (object.isNone || dataNull || (len == 0) || cellNull) = true →
      j_object_read object dataNull len off cellNull cell batch
        = (CallOutcome.returned, cell, batch))
    ∧ (∀ object dataNull len off cellNull cell batch,
      (object.isNone || dataNull || (len == 0) || cellNull) = true →
      j_object_write object dataNull len off cellNull cell batch
        = (CallOutcome.returned, cell, batch))
    ∧ (∀ cfg i nspace key, j_configuration_get_kv_server_count cfg ≤ i →
      j_kv_new_for_index cfg i nspace key = Option.none)
    ∧ (∀ cfg i nspace name, j_configuration_get_object_server_count cfg ≤ i →
      j_object_new_for_index cfg i nspace name = Option.none) := by
  refine ⟨?_, ?_, ?_, ?_⟩
  · intro object dataNull len off cellNull cell batch h
    simp [j_object_read, h]
  · intro object dataNull len off cellNull cell batch h
    simp [j_object_write, h]
  · intro cfg i nspace key h
    simp [j_kv_new_for_index, Nat.not_lt.mpr h]
  · intro cfg i nspace name h
    simp [j_object_new_for_index, Nat.not_lt.mpr h]

/-- C9 witness: a null-buffer write call returns normally with batch and
counter untouched, and an out-of-range KV index is rejected with NULL. -/
theorem c9_precondition_violations_recoverable_witness :
    j_object_write (some { index := 0, nspace := "ns", name := "obj" }) true 6 0 false
        (some 5) []
      = (CallOutcome.returned, some 5, [])
    ∧ j_kv_new_for_index
        { servers_object := ["o1", "o2", "o3", "o4"]
          servers_kv := ["k1", "k2", "k3", "k4"]
          object_backend := "posix", object_component := "client", object_path := "/t/o"
          kv_backend := "leveldb", kv_component := "client", kv_path := "/t/k"
          max_connections := 0 } 4 "ns" "alpha" = Option.none := by
  constructor
  · exact c9_precondition_violations_recoverable.2.1
      (some { index := 0, nspace := "ns", name := "obj" }) true 6 0 false (some 5) []
      (by decide)
  · exact c9_precondition_violations_recoverable.2.2.1
      { servers_object := ["o1", "o2", "o3", "o4"]
        servers_kv := ["k1", "k2", "k3", "k4"]
        object_backend := "posix", object_component := "client", object_path := "/t/o"
        kv_backend := "leveldb", kv_component := "client", kv_path := "/t/k"
        max_connections := 0 } 4 "ns" "alpha" (by decide)

/-- C10: `j_configuration_new_for_data` returns NULL exactly when one of the
eight required values is missing (a NULL-or-empty `[servers]` object or kv
list, or an absent object/kv backend, component or path), and the
`[clients] max-connections` key is not required: when absent, construction
succeeds and `j_configuration_get_max_connections` returns 0. -/
theorem c10_new_for_data_required_values (kf : GKeyFile) :
    ((j_configuration_new_for_data kf).isNone
      ↔ (strv_null_or_empty kf.servers_object = true
        ∨ strv_null_or_empty kf.servers_kv = true
        ∨ kf.object_backend = Option.none ∨ kf.object_component = Option.none
        ∨ kf.object_path = Option.none ∨ kf.kv_backend = Option.none
        ∨ kf.kv_component = Option.none ∨ kf.kv_path = Option.none))
    ∧ (∀ cfg, j_configuration_new_for_data kf = some cfg →
      kf.clients_max_connections = Option.none →
      j_configuration_get_max_connections cfg = 0) := by
  constructor
  · unfold j_configuration_new_for_data
    by_cases hc : (strv_null_or_empty kf.servers_object || strv_null_or_empty kf.servers_kv
        || kf.object_backend.isNone || kf.object_component.isNone || kf.object_path.isNone
        || kf.kv_backend.isNone || kf.kv_component.isNone || kf.kv_path.isNone) = true
    · rw [if_pos hc]
      simp only [Bool.or_eq_true, Option.isNone_iff_eq_none] at hc
      simp only [Option.isNone_none, true_iff]
      tauto
    · rw [if_neg hc]
      simp only [Bool.or_eq_true, Option.isNone_iff_eq_none, not_or] at hc
      simp only [Option.isNone_some, false_iff]
      tauto
  · intro cfg h hmax
    unfold j_configuration_new_for_data at h
    by_cases hc : (strv_null_or_empty kf.servers_object || strv_null_or_empty kf.servers_kv
        || kf.object_backend.isNone || kf.object_component.isNone || kf.object_path.isNone
        || kf.kv_backend.isNone || kf.kv_component.isNone || kf.kv_path.isNone) = true
    · rw [if_pos hc] at h
      exact absurd h (by simp)
    · rw [if_neg hc] at h
      injection h with h
      subst h
      simp [j_configuration_get_max_connections, hmax]

/-- C10 witness: a key file with all eight required values present and
`max-connections` absent constructs a configuration whose max-connections
query returns 0. -/
theorem c10_new_for_data_required_values_witness :
    j_configuration_get_max_connections
      { servers_object := ["o1"], servers_kv := ["k1"]
        object_backend := "posix", object_component := "client", object_path := "/t/o"
        kv_backend := "leveldb", kv_component := "client", kv_path := "/t/k"
        max_connections := 0 } = 0 :=
  (c10_new_for_data_required_values
    { servers_object := some ["o1"], servers_kv := some ["k1"]
      object_backend := some "posix", object_component := some "client"
      object_path := some "/t/o", kv_backend := some "leveldb"
      kv_component := some "client", kv_path := some "/t/k"
      clients_max_connections := Option.none }).2
    { servers_object := ["o1"], servers_kv := ["k1"]
      object_backend := "posix", object_component := "client", object_path := "/t/o"
      kv_backend := "leveldb", kv_component := "client", kv_path := "/t/k"
      max_connections := 0 } rfl rfl

/-- A sample database for the iteration theorem: namespace "a" (byte 97) holds
keys "x", "xy" and "z", namespace "b" holds key "x", stored as encoded keys in
LevelDB byte order. -/
def dbSample : LevelDB :=
  [([97, 58, 120, 0], [1]), ([97, 58, 120, 121, 0], [2]),
   ([97, 58, 122, 0], [3]), ([98, 58, 120, 0], [4])]

/-- C5 witness: `get_by_prefix("a", "x")` on the sample database iterates
exactly the values of "a:x" and "a:xy", in order. -/
theorem c5_get_by_prefix_iteration_witness :
    iterate_all ( backend_get_by_prefix dbSample [97] [120]) = [[1], [2]]
    ∧ (([97] ++ [58] ++ [120]).isPrefixOf
        (cstr (encode_nskey [97] [120, 121])) = true
        ↔ [97] = [97] ∧ ([120].isPrefixOf [120, 121]) = true) := by
  have hkeys : ∀ e ∈ dbSample, ∃ raw : Bytes, 0 ∉ raw ∧ e.1 = raw ++ [0] := by
    intro e he
    simp only [dbSample, List.mem_cons, List.not_mem_nil, or_false] at he
    rcases he with h | h | h | h
    · exact ⟨[97, 58, 120], by decide, by rw [h]; rfl⟩
    · exact ⟨[97, 58, 120, 121], by decide, by rw [h]; rfl⟩
    · exact ⟨[97, 58, 122], by decide, by rw [h]; rfl⟩
    · exact ⟨[98, 58, 120], by decide, by rw [h]; rfl⟩
  have h := c5_get_by_prefix_iteration dbSample (by decide) hkeys [97] [120]
    (by decide) (by decide) (by decide)
  constructor
  · rw [h.1]
    rfl
  · exact h.2 [97] [120, 121] (by decide) (by decide) (by decide)

/-- C7 witness: with four object and four KV servers, `j_kv_new` hashes into
range, index 2 is accepted by `j_kv_new_for_index`, and index 4 is rejected. -/
theorem c7_server_index_derivation_witness :
    (j_kv_new String.length
        { servers_object := ["o1", "o2", "o3", "o4"]
          servers_kv := ["k1", "k2", "k3", "k4"]
          object_backend := "posix", object_component := "client", object_path := "/t/o"
          kv_backend := "leveldb", kv_component := "client", kv_path := "/t/k"
          max_connections := 2 } "ns" "alpha").index
      < j_configuration_get_kv_server_count
        { servers_object := ["o1", "o2", "o3", "o4"]
          servers_kv := ["k1", "k2", "k3", "k4"]
          object_backend := "posix", object_component := "client", object_path := "/t/o"
          kv_backend := "leveldb", kv_component := "client", kv_path := "/t/k"
          max_connections := 2 }
    ∧ (j_kv_new_for_index
        { servers_object := ["o1", "o2", "o3", "o4"]
          servers_kv := ["k1", "k2", "k3", "k4"]
          object_backend := "posix", object_component := "client", object_path := "/t/o"
          kv_backend := "leveldb", kv_component := "client", kv_path := "/t/k"
          max_connections := 2 } 2 "ns" "alpha").isSome = true := by
  have h := c7_server_index_derivation String.length
    { servers_object := ["o1", "o2", "o3", "o4"]
      servers_kv := ["k1", "k2", "k3", "k4"]
      object_backend := "posix", object_component := "client", object_path := "/t/o"
      kv_backend := "leveldb", kv_component := "client", kv_path := "/t/k"
      max_connections := 2 } (by decide) (by decide) "ns" "alpha" "alpha"
  exact ⟨h.2.2.2.1, (h.2.2.2.2.2.1 2).mpr (by decide)⟩
